import Mathlib

/-!
Verification of the claims of `spec.md` against a shallow embedding of
`src/internal/services/gateway/api/client.go` (the agola gateway API client).

The embedding translates the Go source into Lean definitions:
* `url.Values` (with `Add` and `Encode`, including Go's `QueryEscape` and the
  key sort performed by `Encode`) as `Values`;
* `path.Join` / `path.Clean` from Go's `path` package as `pathJoin` / `pathClean`;
* `http.Header` as an association list with `Set` and the map-assignment
  overlay loop of `doRequest`;
* the effectful pipeline `doRequest` / `getResponse` / `getParsedResponse`
  as functions from an environment `Env` (the outcomes of the external
  collaborators: `url.Parse`, `http.NewRequest`, the HTTP transport) to an
  outcome value, and every public resource operation on top of it.

Machine integers do not occur on the claim-relevant paths (the only integer
data are HTTP status codes and the pagination `limit`, modelled as `Nat` and
`Int`); response body bytes are modelled as a `String`, with `len` of the Go
byte slice rendered as `String.utf8ByteSize`.
-/

namespace Agola

/-! ### Go `net/url` query escaping (`url.QueryEscape`) -/

/-- Characters Go's `url.shouldEscape` leaves unescaped in a query
component: ASCII alphanumerics and `-`, `_`, `.`, `~`. -/
def isQueryUnreserved (c : Char) : Bool :=
  c.isAlphanum || c = '-' || c = '_' || c = '.' || c = '~'

/-- Upper-case hexadecimal digit, as used by Go's percent-encoding. -/
def hexDigitUpper (n : Nat) : Char :=
  if n < 10 then Char.ofNat ('0'.toNat + n) else Char.ofNat ('A'.toNat + (n - 10))

/-- The UTF-8 bytes of a character (as `Nat`s); Go strings are UTF-8 and
`QueryEscape` percent-encodes byte by byte. -/
def utf8Bytes (c : Char) : List Nat :=
  let v := c.toNat
  if v < 0x80 then [v]
  else if v < 0x800 then [0xC0 + v / 0x40, 0x80 + v % 0x40]
  else if v < 0x10000 then [0xE0 + v / 0x1000, 0x80 + v / 0x40 % 0x40, 0x80 + v % 0x40]
  else [0xF0 + v / 0x40000, 0x80 + v / 0x1000 % 0x40, 0x80 + v / 0x40 % 0x40, 0x80 + v % 0x40]

/-- Percent (`%XX`) encoding of one byte. -/
def percentByte (b : Nat) : List Char :=
  ['%', hexDigitUpper (b / 16), hexDigitUpper (b % 16)]

/-- Escaping of a single character under `url.QueryEscape`: unreserved
characters pass through, space becomes `+`, everything else is
percent-encoded per UTF-8 byte. -/
def escQueryChar (c : Char) : List Char :=
  if isQueryUnreserved c then [c]
  else if c = ' ' then ['+']
  else List.flatten ((utf8Bytes c).map percentByte)

/-- Go `url.QueryEscape`. -/
def queryEscape (s : String) : String :=
  ⟨List.flatten (s.data.map escQueryChar)⟩

/-! ### Go `url.Values` -/

/-- Go `url.Values` is `map[string][]string`; we model it as an association
list whose keys are pairwise distinct (the only constructor used by the
client is `Add`, which preserves this). -/
abbrev Values := List (String × List String)

/-- The empty `url.Values{}` (also stands for a `nil` `url.Values`, whose
`Encode` is likewise the empty string). -/
def Values.empty : Values := []

/-- Go `url.Values.Add`: appends `v` to the slice stored under `k`. -/
def Values.add : Values → String → String → Values
  | [], k, v => [(k, [v])]
  | (k', vs) :: q, k, v =>
    if k' = k then (k', vs ++ [v]) :: q else (k', vs) :: Values.add q k v

/-- Byte-wise lexicographic string order, as used by `sort.Strings` on the
keys inside `url.Values.Encode` (our keys are ASCII, where byte order and
character order agree). -/
def charsLtB : List Char → List Char → Bool
  | _, [] => false
  | [], _ :: _ => true
  | c :: cs, d :: ds => if c < d then true else if d < c then false else charsLtB cs ds

def strLeB (a b : String) : Bool := !(charsLtB b.data a.data)

/-- Insertion sort of the entries by key, the sort `url.Values.Encode`
performs on its keys (keys are pairwise distinct, so stability is moot). -/
def insertByKey (x : String × List String) : Values → Values
  | [] => [x]
  | y :: ys => if strLeB x.1 y.1 then x :: y :: ys else y :: insertByKey x ys

def sortByKey : Values → Values
  | [] => []
  | x :: xs => insertByKey x (sortByKey xs)

/-- Go `url.Values.Encode`: sort keys, then emit `k=escape(v)` pairs (one per
value, in slice order) joined by `&`. -/
def Values.encode (q : Values) : String :=
  String.intercalate "&"
    (List.flatten ((sortByKey q).map fun kv =>
      kv.2.map fun v => queryEscape kv.1 ++ "=" ++ queryEscape v))

/-! ### Go `path.Clean` / `path.Join` -/

/-- Segment processing of Go `path.Clean`: drop empty and `.` segments,
let `..` cancel the preceding segment (or survive / vanish at the root,
depending on rootedness). The accumulator holds the output segments in
reverse. -/
def pathCleanLoop (rooted : Bool) : List String → List String → List String
  | stack, [] => stack
  | stack, seg :: rest =>
    if seg = "" || seg = "." then pathCleanLoop rooted stack rest
    else if seg = ".." then
      match stack with
      | top :: stack' =>
        if top = ".." then pathCleanLoop rooted (".." :: top :: stack') rest
        else pathCleanLoop rooted stack' rest
      | [] =>
        if rooted then pathCleanLoop rooted [] rest
        else pathCleanLoop rooted [".."] rest
    else pathCleanLoop rooted (seg :: stack) rest

/-- Splitting a string on `/` (the segment decomposition `path.Clean`
operates on), written by structural recursion on the characters so that it
evaluates definitionally. -/
def splitSlashAux : List Char → List Char → List String
  | cur, [] => [⟨cur.reverse⟩]
  | cur, c :: cs =>
    if c = '/' then ⟨cur.reverse⟩ :: splitSlashAux [] cs
    else splitSlashAux (c :: cur) cs

def splitSlash (s : String) : List String := splitSlashAux [] s.data

/-- Go `path.Clean`. -/
def pathClean (p : String) : String :=
  if p = "" then "."
  else
    let rooted := match p.data with | c :: _ => c = '/' | [] => false
    let out := (pathCleanLoop rooted [] (splitSlash p)).reverse
    let joined := String.intercalate "/" out
    if rooted then "/" ++ joined
    else if joined = "" then "." else joined

/-- Go `path.Join`: join the elements from the first non-empty one with
`/` and `Clean` the result; all-empty input gives `""`. -/
def pathJoin (elems : List String) : String :=
  match elems.dropWhile (· = "") with
  | [] => ""
  | rest => pathClean (String.intercalate "/" rest)

/-! ### `http.Header` -/

/-- Go `http.Header` is `map[string][]string`; modelled as an association
list with pairwise-distinct keys (true of every header value the client
builds or that a Go map can hold). Go map iteration order is arbitrary,
but the overlay loop writes distinct keys, so a left fold over the list is
an order-independent representative. -/
abbrev Header := List (String × List String)

/-- The package-level `jsonContent` header (`client.go` line 35). -/
def jsonContent : Header := [("content-type", ["application/json"])]

/-- Go `http.Header.Set k v`: replace the entry for `k` by the single value
`v` (the key the client passes, `Authorization`, is already in canonical
MIME form, so canonicalization is the identity here). -/
def Header.set : Header → String → String → Header
  | [], k, v => [(k, [v])]
  | (k', vs) :: h, k, v =>
    if k' = k then (k, [v]) :: h else (k', vs) :: Header.set h k v

/-- Go map assignment `h[k] = vs`. -/
def Header.assign : Header → String → List String → Header
  | [], k, vs => [(k, vs)]
  | (k', vs') :: h, k, vs =>
    if k' = k then (k, vs) :: h else (k', vs') :: Header.assign h k vs

/-- The overlay loop of `doRequest` (`client.go` lines 72-74):
`for k, v := range header { req.Header[k] = v }`. -/
def Header.overlay (base extra : Header) : Header :=
  extra.foldl (fun acc kv => Header.assign acc kv.1 kv.2) base

/-- Header lookup (first entry with the key; keys are distinct). -/
def Header.lookup : Header → String → Option (List String)
  | [], _ => none
  | (k', vs) :: h, k => if k' = k then some vs else Header.lookup h k

/-! ### The request/response pipeline -/

/-- A completed HTTP response, as far as the client inspects it:
status code, status line text (`resp.Status`, e.g. `"404 Not Found"`),
and the outcome of reading the body (`ioutil.ReadAll` / the JSON decoder's
underlying reads): either a read error or the full body bytes. -/
structure HttpResponse where
  statusCode : Nat
  status : String
  bodyRead : Except String String

/-- The outgoing request `doRequest` hands to the transport: the method,
the string given to `url.Parse` (`c.url + "/api/v1alpha" + path`), the
encoded query assigned to `u.RawQuery`, the final header map, and the
marshaled body bytes (if any). -/
structure Request where
  method : String
  rawUrl : String
  rawQuery : String
  header : Header
  body : Option String

/-- The `Client` struct (`client.go` lines 38-42); the `http.Client`
transport handle lives in `Env`. -/
structure Client where
  url : String
  token : String

/-- Go `strings.TrimSuffix(url, "/")`: drop one trailing `/` when present
(written on the character list so that it evaluates definitionally). -/
def trimSlashSuffix (url : String) : String :=
  match url.data.getLast? with
  | some '/' => ⟨url.data.dropLast⟩
  | _ => url

/-- Source `NewClient` (`client.go` lines 45-51): strips one trailing `/`. -/
def NewClient (url token : String) : Client :=
  { url := trimSlashSuffix url, token := token }

/-- Outcomes of the external collaborators of one call, out of scope of
the spec (spec §1): whether `url.Parse` rejects the composed URL string,
whether `http.NewRequest` fails, and what the transport (`c.client.Do`)
returns for a given request. -/
structure Env where
  urlParse : String → Option String
  newRequest : String → Option String
  transport : Request → Except String HttpResponse

/-- Result of `doRequest` (`client.go` lines 58-77). `panicked` is the
nil-pointer dereference on line 66: when `http.NewRequest` returns an
error its request is nil, and `req = req.WithContext(ctx)` runs before
the `err` check on line 67. -/
inductive DoOutcome where
  | panicked : DoOutcome
  | errBeforeSend : String → DoOutcome
  | errTransport : Request → String → DoOutcome
  | completed : Request → HttpResponse → DoOutcome

/-- Source `doRequest` (`client.go` lines 58-77). -/
def doRequest (c : Client) (env : Env) (method path : String) (query : Values)
    (header : Header) (ibody : Option String) : DoOutcome :=
  let raw := c.url ++ "/api/v1alpha" ++ path
  match env.urlParse raw with
  | some e => .errBeforeSend e
  | none =>
    let enc := Values.encode query
    match env.newRequest raw with
    | some _ => .panicked
    | none =>
      let hdr := Header.overlay (Header.set [] "Authorization" ("token " ++ c.token)) header
      match env.transport { method := method, rawUrl := raw, rawQuery := enc,
                            header := hdr, body := ibody } with
      | .error e => .errTransport { method := method, rawUrl := raw, rawQuery := enc,
                                    header := hdr, body := ibody } e
      | .ok resp => .completed { method := method, rawUrl := raw, rawQuery := enc,
                                 header := hdr, body := ibody } resp

/-- Result of `getResponse` (`client.go` lines 79-102), with the body
bookkeeping each constructor implies recorded by `rawResult` below:
`errRead` is the `ReadAll` failure path (returns `(nil, err)`, body closed
by the deferred `Close`); `errStatus` the non-2xx path (returns
`(resp, err)`, body fully read and closed); `ok` the 2xx path (returns
`(resp, nil)` with the body still open). -/
inductive RespOutcome where
  | panicked : RespOutcome
  | errBeforeSend : String → RespOutcome
  | errTransport : Request → String → RespOutcome
  | errRead : Request → HttpResponse → String → RespOutcome
  | errStatus : Request → HttpResponse → String → RespOutcome
  | ok : Request → HttpResponse → RespOutcome

/-- Source `getResponse` (`client.go` lines 79-102). `len(data)` of the body
byte slice is `utf8ByteSize` of its string model. -/
def getResponse (c : Client) (env : Env) (method path : String) (query : Values)
    (header : Header) (ibody : Option String) : RespOutcome :=
  match doRequest c env method path query header ibody with
  | .panicked => .panicked
  | .errBeforeSend e => .errBeforeSend e
  | .errTransport req e => .errTransport req e
  | .completed req resp =>
    if resp.statusCode / 100 ≠ 2 then
      match resp.bodyRead with
      | .error e => .errRead req resp e
      | .ok data =>
        if data.utf8ByteSize ≤ 1 then .errStatus req resp resp.status
        else .errStatus req resp data
    else .ok req resp

/-- Result of `getParsedResponse` (`client.go` lines 104-114): as
`RespOutcome`, plus `errDecode` (2xx but the streaming JSON decode fails;
body closed) and a decoded value on `ok` (body closed). -/
inductive ParsedOutcome (α : Type) where
  | panicked : ParsedOutcome α
  | errBeforeSend : String → ParsedOutcome α
  | errTransport : Request → String → ParsedOutcome α
  | errRead : Request → HttpResponse → String → ParsedOutcome α
  | errStatus : Request → HttpResponse → String → ParsedOutcome α
  | errDecode : Request → HttpResponse → String → ParsedOutcome α
  | ok : Request → HttpResponse → α → ParsedOutcome α

/-- Source `getParsedResponse` (`client.go` lines 104-114). `decode` is the
caller-side `json.Decoder` for the target type: it consumes the body
stream, so a failing underlying read surfaces as its error. -/
def getParsedResponse (c : Client) (env : Env) (method path : String) (query : Values)
    (header : Header) (ibody : Option String)
    (decode : String → Except String α) : ParsedOutcome α :=
  match getResponse c env method path query header ibody with
  | .panicked => .panicked
  | .errBeforeSend e => .errBeforeSend e
  | .errTransport req e => .errTransport req e
  | .errRead req resp e => .errRead req resp e
  | .errStatus req resp msg => .errStatus req resp msg
  | .ok req resp =>
    match (match resp.bodyRead with
           | .error e => Except.error e
           | .ok data => decode data) with
    | .error e => .errDecode req resp e
    | .ok v => .ok req resp v

/-! ### Observable result of one public operation -/

/-- What one public operation returns and does: the typed result pointer
(`none` = nil), the returned raw response pointer, the returned error,
whether the call panicked, the request handed to the transport (if the
transport was invoked), the response the transport completed (if any),
and — when a response was completed — whether the client closed its body
before the operation returned. -/
structure OpResult (α : Type) where
  result : Option α
  resp : Option HttpResponse
  err : Option String
  panicked : Bool
  sentReq : Option Request
  completed : Option HttpResponse
  bodyClosed : Option Bool

/-- Assembles the triple returned by an operation built on
`getParsedResponse`, e.g. `GetProject` (`client.go` lines 116-120):
the typed target is allocated zero-valued with `new` before the call and
returned on every non-panicking path. -/
def parsedOpResult (zero : α) : ParsedOutcome α → OpResult α
  | .panicked =>
    { result := none, resp := none, err := none, panicked := true,
      sentReq := none, completed := none, bodyClosed := none }
  | .errBeforeSend e =>
    { result := some zero, resp := none, err := some e, panicked := false,
      sentReq := none, completed := none, bodyClosed := none }
  | .errTransport req e =>
    { result := some zero, resp := none, err := some e, panicked := false,
      sentReq := some req, completed := none, bodyClosed := none }
  | .errRead req resp e =>
    { result := some zero, resp := none, err := some e, panicked := false,
      sentReq := some req, completed := some resp, bodyClosed := some true }
  | .errStatus req resp msg =>
    { result := some zero, resp := some resp, err := some msg, panicked := false,
      sentReq := some req, completed := some resp, bodyClosed := some true }
  | .errDecode req resp e =>
    { result := some zero, resp := some resp, err := some e, panicked := false,
      sentReq := some req, completed := some resp, bodyClosed := some true }
  | .ok req resp v =>
    { result := some v, resp := some resp, err := none, panicked := false,
      sentReq := some req, completed := some resp, bodyClosed := some true }

/-- Assembles the pair returned by an operation that calls `getResponse`
directly, e.g. `deleteProject` (`client.go` lines 186-188); such
operations return no typed result (`result` stays `none`). On the 2xx
path `getResponse` returns with the body untouched, so the operation
returns it open (`bodyClosed = some false`). -/
def rawResult : RespOutcome → OpResult Unit
  | .panicked =>
    { result := none, resp := none, err := none, panicked := true,
      sentReq := none, completed := none, bodyClosed := none }
  | .errBeforeSend e =>
    { result := none, resp := none, err := some e, panicked := false,
      sentReq := none, completed := none, bodyClosed := none }
  | .errTransport req e =>
    { result := none, resp := none, err := some e, panicked := false,
      sentReq := some req, completed := none, bodyClosed := none }
  | .errRead req resp e =>
    { result := none, resp := none, err := some e, panicked := false,
      sentReq := some req, completed := some resp, bodyClosed := some true }
  | .errStatus req resp msg =>
    { result := none, resp := some resp, err := some msg, panicked := false,
      sentReq := some req, completed := some resp, bodyClosed := some true }
  | .ok req resp =>
    { result := none, resp := some resp, err := none, panicked := false,
      sentReq := some req, completed := some resp, bodyClosed := some false }

/-- The short-circuit return of a body-carrying operation whose
`json.Marshal` failed, e.g. `createProject` (`client.go` lines 164-167):
`return nil, nil, err` before any request is built. -/
def marshalErrResult (e : String) : OpResult α :=
  { result := none, resp := none, err := some e, panicked := false,
    sentReq := none, completed := none, bodyClosed := none }

/-! ### Domain payload types

Modelled from the spec: the per-operation response structures
(`types.Project`, `GetProjectsResponse`, `UserResponse`, … ) are declared
outside the provided source file; the spec (§1, §3) treats them as opaque
JSON-serializable records whose contents the client core never inspects,
so each is a fieldless structure whose single value is the Go zero value
`new(T)` allocates. Request payloads appear only through the outcome of
`json.Marshal`, which the operations take as an argument. -/

structure Project where mk ::

structure User where mk ::

structure RemoteSource where mk ::

structure GetProjectsResponse where mk ::

structure UsersResponse where mk ::

structure UserResponse where mk ::

structure CreateUserLAResponse where mk ::

structure CreateUserTokenResponse where mk ::

structure RunResponse where mk ::

structure GetRunsResponse where mk ::

structure RemoteSourceResponse where mk ::

structure RemoteSourcesResponse where mk ::

structure OrgResponse where mk ::

/-! ### The public resource operations (`client.go` lines 116-341)

Each operation takes the `Client`, the `Env` of external outcomes, its Go
arguments, and — where the Go code decodes a response or marshals a
request — the decoder for the target type resp. the `json.Marshal`
outcome for the caller's payload. -/

/-- Source `GetProject` (`client.go` lines 116-120). -/
def GetProject (c : Client) (env : Env) (projectID : String)
    (decode : String → Except String Project) : OpResult Project :=
  parsedOpResult Project.mk
    (getParsedResponse c env "GET" ("/project/" ++ projectID) Values.empty jsonContent none decode)

/-- Source `getProjects` (`client.go` lines 134-149). -/
def getProjects (c : Client) (env : Env) (ownertype ownername start : String)
    (limit : Int) (asc : Bool)
    (decode : String → Except String GetProjectsResponse) : OpResult GetProjectsResponse :=
  let q := Values.empty
  let q := if start ≠ "" then Values.add q "start" start else q
  let q := if limit > 0 then Values.add q "limit" (toString limit) else q
  let q := if asc then Values.add q "asc" "" else q
  parsedOpResult GetProjectsResponse.mk
    (getParsedResponse c env "GET" (pathJoin ["/", ownertype, ownername, "projects"])
      q jsonContent none decode)

/-- Source `GetCurrentUserProjects` (`client.go` lines 122-124). -/
def GetCurrentUserProjects (c : Client) (env : Env) (start : String) (limit : Int)
    (asc : Bool) (decode : String → Except String GetProjectsResponse) :
    OpResult GetProjectsResponse :=
  getProjects c env "user" "" start limit asc decode

/-- Source `GetUserProjects` (`client.go` lines 126-128). -/
def GetUserProjects (c : Client) (env : Env) (username start : String) (limit : Int)
    (asc : Bool) (decode : String → Except String GetProjectsResponse) :
    OpResult GetProjectsResponse :=
  getProjects c env "user" username start limit asc decode

/-- Source `GetOrgProjects` (`client.go` lines 130-132). -/
def GetOrgProjects (c : Client) (env : Env) (orgname start : String) (limit : Int)
    (asc : Bool) (decode : String → Except String GetProjectsResponse) :
    OpResult GetProjectsResponse :=
  getProjects c env "org" orgname start limit asc decode

/-- Source `createProject` (`client.go` lines 163-172); `reqMarshal` is the
outcome of `json.Marshal(req)`. -/
def createProject (c : Client) (env : Env) (ownertype ownername : String)
    (reqMarshal : Except String String)
    (decode : String → Except String Project) : OpResult Project :=
  match reqMarshal with
  | .error e => marshalErrResult e
  | .ok reqj =>
    parsedOpResult Project.mk
      (getParsedResponse c env "PUT" (pathJoin ["/", ownertype, ownername, "projects"])
        Values.empty jsonContent (some reqj) decode)

/-- Source `CreateCurrentUserProject` (`client.go` lines 151-153). -/
def CreateCurrentUserProject (c : Client) (env : Env)
    (reqMarshal : Except String String)
    (decode : String → Except String Project) : OpResult Project :=
  createProject c env "user" "" reqMarshal decode

/-- Source `CreateUserProject` (`client.go` lines 155-157). -/
def CreateUserProject (c : Client) (env : Env) (username : String)
    (reqMarshal : Except String String)
    (decode : String → Except String Project) : OpResult Project :=
  createProject c env "user" username reqMarshal decode

/-- Source `CreateOrgProject` (`client.go` lines 159-161). -/
def CreateOrgProject (c : Client) (env : Env) (orgname : String)
    (reqMarshal : Except String String)
    (decode : String → Except String Project) : OpResult Project :=
  createProject c env "org" orgname reqMarshal decode

/-- Source `deleteProject` (`client.go` lines 186-188). -/
def deleteProject (c : Client) (env : Env) (ownertype ownername projectName : String) :
    OpResult Unit :=
  rawResult (getResponse c env "DELETE"
    (pathJoin ["/projects", ownertype, ownername, projectName]) Values.empty jsonContent none)

/-- Source `DeleteCurrentUserProject` (`client.go` lines 174-176). -/
def DeleteCurrentUserProject (c : Client) (env : Env) (projectName : String) : OpResult Unit :=
  deleteProject c env "user" "" projectName

/-- Source `DeleteUserProject` (`client.go` lines 178-180). -/
def DeleteUserProject (c : Client) (env : Env) (username projectName : String) : OpResult Unit :=
  deleteProject c env "user" username projectName

/-- Source `DeleteOrgProject` (`client.go` lines 182-184). -/
def DeleteOrgProject (c : Client) (env : Env) (orgname projectName : String) : OpResult Unit :=
  deleteProject c env "org" orgname projectName

/-- Source `ReconfigProject` (`client.go` lines 190-192). -/
def ReconfigProject (c : Client) (env : Env) (projectName : String) : OpResult Unit :=
  rawResult (getResponse c env "POST" ("/projects/" ++ projectName ++ "/reconfig")
    Values.empty jsonContent none)

/-- Source `GetUser` (`client.go` lines 194-198). -/
def GetUser (c : Client) (env : Env) (userID : String)
    (decode : String → Except String User) : OpResult User :=
  parsedOpResult User.mk
    (getParsedResponse c env "GET" ("/user/" ++ userID) Values.empty jsonContent none decode)

/-- Source `GetUsers` (`client.go` lines 200-215). -/
def GetUsers (c : Client) (env : Env) (start : String) (limit : Int) (asc : Bool)
    (decode : String → Except String UsersResponse) : OpResult UsersResponse :=
  let q := Values.empty
  let q := if start ≠ "" then Values.add q "start" start else q
  let q := if limit > 0 then Values.add q "limit" (toString limit) else q
  let q := if asc then Values.add q "asc" "" else q
  parsedOpResult UsersResponse.mk
    (getParsedResponse c env "GET" "/users" q jsonContent none decode)

/-- Source `CreateUser` (`client.go` lines 217-226). -/
def CreateUser (c : Client) (env : Env) (reqMarshal : Except String String)
    (decode : String → Except String UserResponse) : OpResult UserResponse :=
  match reqMarshal with
  | .error e => marshalErrResult e
  | .ok reqj =>
    parsedOpResult UserResponse.mk
      (getParsedResponse c env "PUT" "/users" Values.empty jsonContent (some reqj) decode)

/-- Source `DeleteUser` (`client.go` lines 228-230). -/
def DeleteUser (c : Client) (env : Env) (userName : String) : OpResult Unit :=
  rawResult (getResponse c env "DELETE" ("/users/" ++ userName) Values.empty jsonContent none)

/-- Source `CreateUserLA` (`client.go` lines 232-241). -/
def CreateUserLA (c : Client) (env : Env) (userName : String)
    (reqMarshal : Except String String)
    (decode : String → Except String CreateUserLAResponse) : OpResult CreateUserLAResponse :=
  match reqMarshal with
  | .error e => marshalErrResult e
  | .ok reqj =>
    parsedOpResult CreateUserLAResponse.mk
      (getParsedResponse c env "PUT" ("/users/" ++ userName ++ "/linkedaccounts")
        Values.empty jsonContent (some reqj) decode)

/-- Source `DeleteUserLA` (`client.go` lines 243-245). -/
def DeleteUserLA (c : Client) (env : Env) (userName laID : String) : OpResult Unit :=
  rawResult (getResponse c env "DELETE"
    ("/users/" ++ userName ++ "/linkedaccounts/" ++ laID) Values.empty jsonContent none)

/-- Source `CreateUserToken` (`client.go` lines 247-256). -/
def CreateUserToken (c : Client) (env : Env) (userName : String)
    (reqMarshal : Except String String)
    (decode : String → Except String CreateUserTokenResponse) :
    OpResult CreateUserTokenResponse :=
  match reqMarshal with
  | .error e => marshalErrResult e
  | .ok reqj =>
    parsedOpResult CreateUserTokenResponse.mk
      (getParsedResponse c env "PUT" ("/users/" ++ userName ++ "/tokens")
        Values.empty jsonContent (some reqj) decode)

/-- Source `GetRun` (`client.go` lines 258-262). -/
def GetRun (c : Client) (env : Env) (runID : String)
    (decode : String → Except String RunResponse) : OpResult RunResponse :=
  parsedOpResult RunResponse.mk
    (getParsedResponse c env "GET" ("/run/" ++ runID) Values.empty jsonContent none decode)

/-- Source `GetRuns` (`client.go` lines 264-288). -/
def GetRuns (c : Client) (env : Env) (phaseFilter groups runGroups : List String)
    (start : String) (limit : Int) (asc : Bool)
    (decode : String → Except String GetRunsResponse) : OpResult GetRunsResponse :=
  let q := Values.empty
  let q := phaseFilter.foldl (fun q phase => Values.add q "phase" phase) q
  let q := groups.foldl (fun q group => Values.add q "group" group) q
  let q := runGroups.foldl (fun q runGroup => Values.add q "rungroup" runGroup) q
  let q := if start ≠ "" then Values.add q "start" start else q
  let q := if limit > 0 then Values.add q "limit" (toString limit) else q
  let q := if asc then Values.add q "asc" "" else q
  parsedOpResult GetRunsResponse.mk
    (getParsedResponse c env "GET" "/runs" q jsonContent none decode)

/-- Source `GetRemoteSource` (`client.go` lines 290-294). -/
def GetRemoteSource (c : Client) (env : Env) (rsID : String)
    (decode : String → Except String RemoteSourceResponse) : OpResult RemoteSourceResponse :=
  parsedOpResult RemoteSourceResponse.mk
    (getParsedResponse c env "GET" ("/remotesource/" ++ rsID) Values.empty jsonContent none decode)

/-- Source `GetRemoteSources` (`client.go` lines 296-311). -/
def GetRemoteSources (c : Client) (env : Env) (start : String) (limit : Int) (asc : Bool)
    (decode : String → Except String RemoteSourcesResponse) : OpResult RemoteSourcesResponse :=
  let q := Values.empty
  let q := if start ≠ "" then Values.add q "start" start else q
  let q := if limit > 0 then Values.add q "limit" (toString limit) else q
  let q := if asc then Values.add q "asc" "" else q
  parsedOpResult RemoteSourcesResponse.mk
    (getParsedResponse c env "GET" "/remotesources" q jsonContent none decode)

/-- Source `CreateRemoteSource` (`client.go` lines 313-322). -/
def CreateRemoteSource (c : Client) (env : Env) (reqMarshal : Except String String)
    (decode : String → Except String RemoteSource) : OpResult RemoteSource :=
  match reqMarshal with
  | .error e => marshalErrResult e
  | .ok uj =>
    parsedOpResult RemoteSource.mk
      (getParsedResponse c env "PUT" "/remotesources" Values.empty jsonContent (some uj) decode)

/-- Source `DeleteRemoteSource` (`client.go` lines 324-326). -/
def DeleteRemoteSource (c : Client) (env : Env) (name : String) : OpResult Unit :=
  rawResult (getResponse c env "DELETE" ("/remotesources/" ++ name)
    Values.empty jsonContent none)

/-- Source `CreateOrg` (`client.go` lines 328-337). -/
def CreateOrg (c : Client) (env : Env) (reqMarshal : Except String String)
    (decode : String → Except String OrgResponse) : OpResult OrgResponse :=
  match reqMarshal with
  | .error e => marshalErrResult e
  | .ok reqj =>
    parsedOpResult OrgResponse.mk
      (getParsedResponse c env "PUT" "/orgs" Values.empty jsonContent (some reqj) decode)

/-- Source `DeleteOrg` (`client.go` lines 339-341). -/
def DeleteOrg (c : Client) (env : Env) (orgName : String) : OpResult Unit :=
  rawResult (getResponse c env "DELETE" ("/orgs/" ++ orgName) Values.empty jsonContent none)

/-! ### Helper lemmas: which request reaches the transport -/

/-- The request an outcome of `doRequest` handed to the transport. -/
def DoOutcome.sentReqD : DoOutcome → Option Request
  | .panicked => none
  | .errBeforeSend _ => none
  | .errTransport req _ => some req
  | .completed req _ => some req

def RespOutcome.sentReqR : RespOutcome → Option Request
  | .panicked => none
  | .errBeforeSend _ => none
  | .errTransport req _ => some req
  | .errRead req _ _ => some req
  | .errStatus req _ _ => some req
  | .ok req _ => some req

def ParsedOutcome.sentReqP : ParsedOutcome α → Option Request
  | .panicked => none
  | .errBeforeSend _ => none
  | .errTransport req _ => some req
  | .errRead req _ _ => some req
  | .errStatus req _ _ => some req
  | .errDecode req _ _ => some req
  | .ok req _ _ => some req

/-- The request `doRequest` sends is fully determined by its arguments:
method as given, URL string `c.url + "/api/v1alpha" + path`, the encoded
query, the token header overlaid with the caller header, and the body. -/
theorem doRequest_sentReq_eq (c : Client) (env : Env) (method path : String)
    (query : Values) (header : Header) (ibody : Option String) (req : Request)
    (h : (doRequest c env method path query header ibody).sentReqD = some req) :
    req = { method := method, rawUrl := c.url ++ "/api/v1alpha" ++ path,
            rawQuery := Values.encode query,
            header := Header.overlay (Header.set [] "Authorization" ("token " ++ c.token)) header,
            body := ibody } := by
  simp only [doRequest] at h
  cases hp : env.urlParse (c.url ++ "/api/v1alpha" ++ path) with
  | some e => rw [hp] at h; simp [DoOutcome.sentReqD] at h
  | none =>
    rw [hp] at h
    cases hn : env.newRequest (c.url ++ "/api/v1alpha" ++ path) with
    | some e => rw [hn] at h; simp [DoOutcome.sentReqD] at h
    | none =>
      rw [hn] at h
      cases ht : env.transport _ with
      | error e => rw [ht] at h; simp only [DoOutcome.sentReqD, Option.some.injEq] at h; exact h.symm
      | ok resp => rw [ht] at h; simp only [DoOutcome.sentReqD, Option.some.injEq] at h; exact h.symm

theorem getResponse_sentReq (c : Client) (env : Env) (method path : String)
    (query : Values) (header : Header) (ibody : Option String) :
    (getResponse c env method path query header ibody).sentReqR
      = (doRequest c env method path query header ibody).sentReqD := by
  unfold getResponse
  cases doRequest c env method path query header ibody with
  | panicked => rfl
  | errBeforeSend e => rfl
  | errTransport req e => rfl
  | completed req resp =>
    by_cases h2 : resp.statusCode / 100 ≠ 2
    · simp only [if_pos h2]
      cases resp.bodyRead with
      | error e => rfl
      | ok data =>
        by_cases hl : data.utf8ByteSize ≤ 1
        · simp [if_pos hl, RespOutcome.sentReqR, DoOutcome.sentReqD]
        · simp [if_neg hl, RespOutcome.sentReqR, DoOutcome.sentReqD]
    · simp [if_neg h2, RespOutcome.sentReqR, DoOutcome.sentReqD]

theorem getParsedResponse_sentReq (c : Client) (env : Env) (method path : String)
    (query : Values) (header : Header) (ibody : Option String)
    (decode : String → Except String α) :
    (getParsedResponse c env method path query header ibody decode).sentReqP
      = (getResponse c env method path query header ibody).sentReqR := by
  unfold getParsedResponse
  cases getResponse c env method path query header ibody with
  | panicked => rfl
  | errBeforeSend e => rfl
  | errTransport req e => rfl
  | errRead req resp e => rfl
  | errStatus req resp msg => rfl
  | ok req resp =>
    cases hb : (match resp.bodyRead with
                | .error e => Except.error e
                | .ok data => decode data : Except String α) with
    | error e => simp [hb, ParsedOutcome.sentReqP, RespOutcome.sentReqR]
    | ok v => simp [hb, ParsedOutcome.sentReqP, RespOutcome.sentReqR]

theorem parsedOpResult_sentReq (zero : α) (o : ParsedOutcome α) :
    (parsedOpResult zero o).sentReq = o.sentReqP := by
  cases o <;> rfl

theorem rawResult_sentReq (o : RespOutcome) :
    (rawResult o).sentReq = o.sentReqR := by
  cases o <;> rfl

/-- Composite: the request reaching the transport in an operation built
on `getParsedResponse`. -/
theorem parsed_pipeline_sentReq (zero : α) (c : Client) (env : Env) (method path : String)
    (query : Values) (header : Header) (ibody : Option String)
    (decode : String → Except String α) (req : Request)
    (h : (parsedOpResult zero (getParsedResponse c env method path query header ibody decode)).sentReq
           = some req) :
    req = { method := method, rawUrl := c.url ++ "/api/v1alpha" ++ path,
            rawQuery := Values.encode query,
            header := Header.overlay (Header.set [] "Authorization" ("token " ++ c.token)) header,
            body := ibody } := by
  rw [parsedOpResult_sentReq, getParsedResponse_sentReq, getResponse_sentReq] at h
  exact doRequest_sentReq_eq c env method path query header ibody req h

/-- Composite: the request reaching the transport in an operation built
on `getResponse` directly. -/
theorem raw_pipeline_sentReq (c : Client) (env : Env) (method path : String)
    (query : Values) (header : Header) (ibody : Option String) (req : Request)
    (h : (rawResult (getResponse c env method path query header ibody)).sentReq = some req) :
    req = { method := method, rawUrl := c.url ++ "/api/v1alpha" ++ path,
            rawQuery := Values.encode query,
            header := Header.overlay (Header.set [] "Authorization" ("token " ++ c.token)) header,
            body := ibody } := by
  rw [rawResult_sentReq, getResponse_sentReq] at h
  exact doRequest_sentReq_eq c env method path query header ibody req h

/-! ### Helper lemmas: inverting `getResponse` / `getParsedResponse` -/

theorem getResponse_errRead_inv (c : Client) (env : Env) (method path : String)
    (query : Values) (header : Header) (ibody : Option String)
    (req : Request) (resp : HttpResponse) (e : String)
    (h : getResponse c env method path query header ibody = .errRead req resp e) :
    resp.bodyRead = .error e ∧ resp.statusCode / 100 ≠ 2 := by
  unfold getResponse at h
  split at h <;> try (cases h)
  case _ req' resp' heq =>
    split at h
    case isTrue h2 =>
      split at h
      case _ e' hb =>
        injection h with h1 h2' h3
        subst h1; subst h2'; subst h3
        exact ⟨hb, h2⟩
      case _ data hb =>
        split at h <;> cases h
    case isFalse h2 => cases h

theorem getResponse_errStatus_inv (c : Client) (env : Env) (method path : String)
    (query : Values) (header : Header) (ibody : Option String)
    (req : Request) (resp : HttpResponse) (msg : String)
    (h : getResponse c env method path query header ibody = .errStatus req resp msg) :
    resp.statusCode / 100 ≠ 2 ∧
      ∃ data, resp.bodyRead = .ok data ∧
        msg = if data.utf8ByteSize ≤ 1 then resp.status else data := by
  unfold getResponse at h
  split at h <;> try (cases h)
  case _ req' resp' heq =>
    split at h
    case isTrue h2 =>
      split at h
      case _ e' hb => cases h
      case _ data hb =>
        split at h
        case isTrue hl =>
          injection h with h1 h2' h3
          subst h1; subst h2'; subst h3
          exact ⟨h2, data, hb, (if_pos hl).symm⟩
        case isFalse hl =>
          injection h with h1 h2' h3
          subst h1; subst h2'; subst h3
          exact ⟨h2, data, hb, (if_neg hl).symm⟩
    case isFalse h2 => cases h

theorem getResponse_ok_inv (c : Client) (env : Env) (method path : String)
    (query : Values) (header : Header) (ibody : Option String)
    (req : Request) (resp : HttpResponse)
    (h : getResponse c env method path query header ibody = .ok req resp) :
    resp.statusCode / 100 = 2 := by
  unfold getResponse at h
  split at h <;> try (cases h)
  case _ req' resp' heq =>
    split at h
    case isTrue h2 =>
      split at h
      case _ e' hb => cases h
      case _ data hb => split at h <;> cases h
    case isFalse h2 =>
      injection h with h1 h2'
      subst h2'
      exact not_not.mp h2

theorem getParsedResponse_errRead_inv (c : Client) (env : Env) (method path : String)
    (query : Values) (header : Header) (ibody : Option String)
    (decode : String → Except String α)
    (req : Request) (resp : HttpResponse) (e : String)
    (h : getParsedResponse c env method path query header ibody decode = .errRead req resp e) :
    getResponse c env method path query header ibody = .errRead req resp e := by
  unfold getParsedResponse at h
  split at h <;> try ((cases h) <;> assumption)
  case _ req' resp' heq =>
    split at h <;> cases h

theorem getParsedResponse_errStatus_inv (c : Client) (env : Env) (method path : String)
    (query : Values) (header : Header) (ibody : Option String)
    (decode : String → Except String α)
    (req : Request) (resp : HttpResponse) (msg : String)
    (h : getParsedResponse c env method path query header ibody decode = .errStatus req resp msg) :
    getResponse c env method path query header ibody = .errStatus req resp msg := by
  unfold getParsedResponse at h
  split at h <;> try ((cases h) <;> assumption)
  case _ req' resp' heq =>
    split at h <;> cases h

theorem getParsedResponse_errDecode_inv (c : Client) (env : Env) (method path : String)
    (query : Values) (header : Header) (ibody : Option String)
    (decode : String → Except String α)
    (req : Request) (resp : HttpResponse) (e : String)
    (h : getParsedResponse c env method path query header ibody decode = .errDecode req resp e) :
    getResponse c env method path query header ibody = .ok req resp := by
  unfold getParsedResponse at h
  split at h <;> try ((cases h) <;> assumption)
  case _ req' resp' heq =>
    split at h
    case _ e' hb => (cases h) <;> assumption
    case _ v hb => cases h

theorem getParsedResponse_ok_inv (c : Client) (env : Env) (method path : String)
    (query : Values) (header : Header) (ibody : Option String)
    (decode : String → Except String α)
    (req : Request) (resp : HttpResponse) (v : α)
    (h : getParsedResponse c env method path query header ibody decode = .ok req resp v) :
    getResponse c env method path query header ibody = .ok req resp := by
  unfold getParsedResponse at h
  split at h <;> try ((cases h) <;> assumption)
  case _ req' resp' heq =>
    split at h
    case _ e' hb => cases h
    case _ v' hb => (cases h) <;> assumption

/-- Non-2xx in the `/100` form used by the code is exactly "outside
200-299" for the claim's reading. -/
theorem statusDiv_ne_two_iff (n : Nat) : n / 100 ≠ 2 ↔ ¬(200 ≤ n ∧ n ≤ 299) := by
  omega

/-! ### Helper lemmas: `Values.add` folds (the filter loops of `GetRuns`) -/

def Values.keys (q : Values) : List String := q.map Prod.fst

theorem Values.add_of_not_mem {q : Values} {k : String} (h : k ∉ Values.keys q) (v : String) :
    Values.add q k v = q ++ [(k, [v])] := by
  induction q with
  | nil => rfl
  | cons kv q ih =>
    obtain ⟨k', vs⟩ := kv
    simp only [Values.keys, List.map_cons, List.mem_cons, not_or] at h
    simp only [Values.add, if_neg (fun hh : k' = k => h.1 hh.symm), List.cons_append,
      List.cons.injEq, true_and]
    exact ih h.2

theorem Values.add_last {k : String} {vs : List String} (v : String) :
    ∀ (q : Values), k ∉ Values.keys q →
      Values.add (q ++ [(k, vs)]) k v = q ++ [(k, vs ++ [v])] := by
  intro q
  induction q with
  | nil => intro _; simp [Values.add]
  | cons kv q ih =>
    obtain ⟨k', vs'⟩ := kv
    intro h
    simp only [Values.keys, List.map_cons, List.mem_cons, not_or] at h
    simp only [List.cons_append, Values.add, if_neg (fun hh : k' = k => h.1 hh.symm),
      List.cons.injEq, true_and]
    exact ih h.2

theorem Values.foldl_add_from {k : String} (vs : List String) :
    ∀ (acc : List String) (q : Values), k ∉ Values.keys q →
      vs.foldl (fun a v => Values.add a k v) (q ++ [(k, acc)]) = q ++ [(k, acc ++ vs)] := by
  induction vs with
  | nil => intro acc q _; simp
  | cons v vs ih =>
    intro acc q h
    simp only [List.foldl_cons, Values.add_last v q h]
    rw [ih (acc ++ [v]) q h]
    simp

/-- A `for _, x := range xs { q.Add(k, x) }` loop over a fresh key `k`
appends one entry holding the whole slice (or nothing if the slice is
empty). -/
theorem Values.foldl_add (k : String) (vs : List String) (q : Values)
    (h : k ∉ Values.keys q) :
    vs.foldl (fun a v => Values.add a k v) q
      = q ++ (if vs = [] then [] else [(k, vs)]) := by
  cases vs with
  | nil => simp
  | cons v vs =>
    simp only [List.foldl_cons, Values.add_of_not_mem h v]
    rw [Values.foldl_add_from vs [v] q h]
    simp

/-! ### Helper lemmas: `Header` overlay lookups -/

theorem Header.lookup_assign_self (h : Header) (k : String) (vs : List String) :
    Header.lookup (Header.assign h k vs) k = some vs := by
  induction h with
  | nil => simp [Header.assign, Header.lookup]
  | cons kv h ih =>
    obtain ⟨k', vs'⟩ := kv
    by_cases hk : k' = k
    · simp [Header.assign, Header.lookup, hk]
    · simp only [Header.assign, if_neg hk, Header.lookup, ih, if_neg hk]

theorem Header.lookup_assign_ne (h : Header) (k k' : String) (vs : List String)
    (hne : k' ≠ k) :
    Header.lookup (Header.assign h k vs) k' = Header.lookup h k' := by
  induction h with
  | nil =>
    simp only [Header.assign, Header.lookup, if_neg (fun hh : k = k' => hne hh.symm)]
  | cons kv h ih =>
    obtain ⟨k'', vs''⟩ := kv
    by_cases hk : k'' = k
    · subst hk
      simp only [Header.assign, if_pos rfl, Header.lookup,
        if_neg (fun hh : k'' = k' => hne hh.symm)]
    · simp only [Header.assign, if_neg hk, Header.lookup, ih]

theorem Header.lookup_eq_none_of_not_mem (h : Header) (k : String)
    (hnm : k ∉ h.map Prod.fst) : Header.lookup h k = none := by
  induction h with
  | nil => rfl
  | cons kv h ih =>
    obtain ⟨k', vs⟩ := kv
    simp only [List.map_cons, List.mem_cons, not_or] at hnm
    simp only [Header.lookup, if_neg (fun hh : k' = k => hnm.1 hh.symm), ih hnm.2]

/-- Lookup through the overlay loop: the caller's entry wins when
present, otherwise the base header's entry is visible. `extra` is a Go
map, so its keys are pairwise distinct. -/
theorem Header.lookup_overlay (base extra : Header) (k : String)
    (hnd : (extra.map Prod.fst).Nodup) :
    Header.lookup (Header.overlay base extra) k
      = match Header.lookup extra k with
        | some vs => some vs
        | none => Header.lookup base k := by
  induction extra generalizing base with
  | nil => simp [Header.overlay, Header.lookup]
  | cons kv extra ih =>
    obtain ⟨k0, vs0⟩ := kv
    simp only [List.map_cons, List.nodup_cons] at hnd
    have step : Header.overlay base ((k0, vs0) :: extra)
        = Header.overlay (Header.assign base k0 vs0) extra := rfl
    rw [step, ih (Header.assign base k0 vs0) hnd.2]
    by_cases hk : k0 = k
    · subst hk
      have : Header.lookup extra k0 = none :=
        Header.lookup_eq_none_of_not_mem _ _ hnd.1
      simp [this, Header.lookup, Header.lookup_assign_self]
    · cases hle : Header.lookup extra k with
      | some vs => simp [hle, Header.lookup, if_neg hk]
      | none =>
        simp [hle, Header.lookup, if_neg hk,
          Header.lookup_assign_ne base k0 k vs0 (fun hh => hk hh.symm)]

/-! ### Helper lemmas: decimal strings pass `QueryEscape` unchanged -/

theorem flatten_escQueryChar_of_unreserved :
    ∀ (l : List Char), (∀ c ∈ l, isQueryUnreserved c = true) →
      List.flatten (l.map escQueryChar) = l := by
  intro l
  induction l with
  | nil => intro _; rfl
  | cons c l ih =>
    intro h
    have hc : isQueryUnreserved c = true := h c (List.mem_cons_self c l)
    simp only [List.map_cons, List.flatten_cons, escQueryChar, if_pos hc,
      List.singleton_append, List.cons.injEq, true_and]
    exact ih fun c' hc' => h c' (List.mem_cons_of_mem c hc')

theorem queryEscape_of_unreserved (s : String)
    (h : ∀ c ∈ s.data, isQueryUnreserved c = true) : queryEscape s = s := by
  unfold queryEscape
  rw [flatten_escQueryChar_of_unreserved s.data h]

theorem isQueryUnreserved_of_isDigit {c : Char} (h : c.isDigit = true) :
    isQueryUnreserved c = true := by
  simp [isQueryUnreserved, Char.isAlphanum, h]

theorem toDigitsCore_digits (b : Nat) (hb : b = 10) :
    ∀ (fuel n : Nat) (acc : List Char), (∀ c ∈ acc, c.isDigit = true) →
      ∀ c ∈ Nat.toDigitsCore b fuel n acc, c.isDigit = true := by
  intro fuel
  induction fuel with
  | zero => intro n acc hacc c hc; exact hacc c hc
  | succ fuel ih =>
    intro n acc hacc c hc
    have hd : (Nat.digitChar (n % b)).isDigit = true := by
      subst hb
      have hm : n % 10 < 10 := Nat.mod_lt _ (by norm_num)
      revert hm
      generalize n % 10 = m
      intro hm
      interval_cases m <;> decide
    have hcons : ∀ c' ∈ Nat.digitChar (n % b) :: acc, c'.isDigit = true := by
      intro c' hc'
      rcases List.mem_cons.mp hc' with h1 | h1
      · rw [h1]; exact hd
      · exact hacc c' h1
    simp only [Nat.toDigitsCore] at hc
    split at hc
    · exact hcons c hc
    · exact ih (n / b) (Nat.digitChar (n % b) :: acc) hcons c hc

/-- The decimal string of a positive `int` (Go `strconv.Itoa`) consists of
digits only, so `QueryEscape` passes it through unchanged. -/
theorem queryEscape_toString_int_pos (n : Int) (h : 0 < n) :
    queryEscape (toString n) = toString n := by
  cases n with
  | ofNat m =>
    have hrepr : toString (Int.ofNat m) = Nat.repr m := rfl
    rw [hrepr]
    apply queryEscape_of_unreserved
    intro c hc
    apply isQueryUnreserved_of_isDigit
    have hd : (Nat.repr m).data = Nat.toDigits 10 m := rfl
    rw [hd] at hc
    exact toDigitsCore_digits 10 rfl (m + 1) m [] (by intro c' hc'; cases hc') c hc
  | negSucc m => exact absurd h (by exact not_lt.mpr (le_of_lt (Int.negSucc_lt_zero m)))

/-! ### Spec-side query-string forms (for the refinement claims C4/C5)

These two definitions follow the words of the spec (§4.4, §8), not the
source: the encoded query lists `asc` (empty-valued, only when true),
`limit` (its decimal string, only when positive), `start` (only when
non-empty), and — for runs — each filter list under its repeated key in
caller order; `Encode` emits keys in sorted order
(`asc < group < limit < phase < rungroup < start`). -/

def specListQueryEnc (start : String) (limit : Int) (asc : Bool) : String :=
  String.intercalate "&"
    ((if asc then ["asc="] else [])
      ++ (if limit > 0 then ["limit=" ++ toString limit] else [])
      ++ (if start = "" then [] else ["start=" ++ queryEscape start]))

def specRunsQueryEnc (phaseFilter groups runGroups : List String)
    (start : String) (limit : Int) (asc : Bool) : String :=
  String.intercalate "&"
    ((if asc then ["asc="] else [])
      ++ ((groups.map fun g => "group=" ++ queryEscape g)
        ++ ((if limit > 0 then ["limit=" ++ toString limit] else [])
          ++ ((phaseFilter.map fun p => "phase=" ++ queryEscape p)
            ++ ((runGroups.map fun r => "rungroup=" ++ queryEscape r)
              ++ (if start = "" then [] else ["start=" ++ queryEscape start]))))))

/-- The pagination query exactly as the list operations build it
(`client.go` lines 135-144, 201-210, 297-306). -/
def listQueryBuilt (start : String) (limit : Int) (asc : Bool) : Values :=
  let q := Values.empty
  let q := if start ≠ "" then Values.add q "start" start else q
  let q := if limit > 0 then Values.add q "limit" (toString limit) else q
  if asc then Values.add q "asc" "" else q

/-- The query exactly as `GetRuns` builds it (`client.go` lines 265-283). -/
def runsQueryBuilt (phaseFilter groups runGroups : List String)
    (start : String) (limit : Int) (asc : Bool) : Values :=
  let q := Values.empty
  let q := phaseFilter.foldl (fun q phase => Values.add q "phase" phase) q
  let q := groups.foldl (fun q group => Values.add q "group" group) q
  let q := runGroups.foldl (fun q runGroup => Values.add q "rungroup" runGroup) q
  let q := if start ≠ "" then Values.add q "start" start else q
  let q := if limit > 0 then Values.add q "limit" (toString limit) else q
  if asc then Values.add q "asc" "" else q

theorem encode_listQueryBuilt (start : String) (limit : Int) (asc : Bool) :
    Values.encode (listQueryBuilt start limit asc) = specListQueryEnc start limit asc := by
  simp only [listQueryBuilt, specListQueryEnc]
  by_cases hs : start = ""
  · subst hs
    by_cases hl : limit > 0
    · rw [if_pos hl, if_pos hl]
      conv_rhs => rw [← queryEscape_toString_int_pos limit hl]
      cases asc <;> rfl
    · rw [if_neg hl, if_neg hl]
      cases asc <;> rfl
  · have hs' : start ≠ "" := hs
    by_cases hl : limit > 0
    · rw [if_pos hs', if_neg hs, if_pos hl, if_pos hl]
      conv_rhs => rw [← queryEscape_toString_int_pos limit hl]
      cases asc <;> rfl
    · rw [if_pos hs', if_neg hs, if_neg hl, if_neg hl]
      cases asc <;> rfl

theorem encode_runsQueryBuilt (P G R : List String) (s : String) (l : Int) (a : Bool) :
    Values.encode (runsQueryBuilt P G R s l a) = specRunsQueryEnc P G R s l a := by
  simp only [runsQueryBuilt, specRunsQueryEnc]
  rw [Values.foldl_add "phase" P Values.empty (by simp [Values.keys, Values.empty])]
  rw [Values.foldl_add "group" G _
    (by rcases P with _ | ⟨p, ps⟩ <;> simp [Values.keys, Values.empty])]
  rw [Values.foldl_add "rungroup" R _
    (by rcases P with _ | ⟨p, ps⟩ <;> rcases G with _ | ⟨g, gs⟩ <;>
        simp [Values.keys, Values.empty])]
  by_cases hs : s = ""
  · subst hs
    by_cases hl : l > 0
    · rw [if_pos hl, if_pos hl]
      conv_rhs => rw [← queryEscape_toString_int_pos l hl]
      rcases P with _ | ⟨p, ps⟩ <;> rcases G with _ | ⟨g, gs⟩ <;>
        rcases R with _ | ⟨r, rs⟩ <;> cases a <;> rfl
    · rw [if_neg hl, if_neg hl]
      rcases P with _ | ⟨p, ps⟩ <;> rcases G with _ | ⟨g, gs⟩ <;>
        rcases R with _ | ⟨r, rs⟩ <;> cases a <;> rfl
  · have hs' : s ≠ "" := hs
    by_cases hl : l > 0
    · rw [if_pos hs', if_neg hs, if_pos hl, if_pos hl]
      conv_rhs => rw [← queryEscape_toString_int_pos l hl]
      rcases P with _ | ⟨p, ps⟩ <;> rcases G with _ | ⟨g, gs⟩ <;>
        rcases R with _ | ⟨r, rs⟩ <;> cases a <;> rfl
    · rw [if_pos hs', if_neg hs, if_neg hl, if_neg hl]
      rcases P with _ | ⟨p, ps⟩ <;> rcases G with _ | ⟨g, gs⟩ <;>
        rcases R with _ | ⟨r, rs⟩ <;> cases a <;> rfl

/-! ### Helper lemmas: what an operation returns once the transport
completed a response -/

/-- Full field characterization of a raw (`getResponse`-based) operation
on a completed response: on 2xx the response is returned with no error and
the body open; on non-2xx the body is closed, and either the body read
failed (read error returned, response dropped) or the body was read and
the error text is the status line (`≤ 1` byte) or the body itself. -/
theorem raw_completed_fields (c : Client) (env : Env) (method path : String)
    (query : Values) (header : Header) (ibody : Option String) (resp : HttpResponse)
    (h : (rawResult (getResponse c env method path query header ibody)).completed = some resp) :
    (resp.statusCode / 100 = 2 ∧
      (rawResult (getResponse c env method path query header ibody)).err = none ∧
      (rawResult (getResponse c env method path query header ibody)).resp = some resp ∧
      (rawResult (getResponse c env method path query header ibody)).bodyClosed = some false)
    ∨ (resp.statusCode / 100 ≠ 2 ∧
        (rawResult (getResponse c env method path query header ibody)).bodyClosed = some true ∧
        ((∃ e, resp.bodyRead = .error e ∧
            (rawResult (getResponse c env method path query header ibody)).err = some e ∧
            (rawResult (getResponse c env method path query header ibody)).resp = none)
          ∨ (∃ data, resp.bodyRead = .ok data ∧
              (rawResult (getResponse c env method path query header ibody)).resp = some resp ∧
              (rawResult (getResponse c env method path query header ibody)).err
                = some (if data.utf8ByteSize ≤ 1 then resp.status else data)))) := by
  rcases ho : getResponse c env method path query header ibody with
    _ | e | ⟨req, e⟩ | ⟨req, r, e⟩ | ⟨req, r, m⟩ | ⟨req, r⟩ <;>
      rw [ho] at h <;> simp only [rawResult, Option.some.injEq] at h <;> try cases h
  · -- errRead
    obtain ⟨hb, hst⟩ := getResponse_errRead_inv c env method path query header ibody req resp e ho
    right
    exact ⟨hst, rfl, Or.inl ⟨e, hb, rfl, rfl⟩⟩
  · -- errStatus
    obtain ⟨hst, data, hb, hm⟩ :=
      getResponse_errStatus_inv c env method path query header ibody req resp m ho
    right
    refine ⟨hst, rfl, Or.inr ⟨data, hb, rfl, ?_⟩⟩
    simp only [rawResult]
    exact congrArg some hm
  · -- ok
    have hst := getResponse_ok_inv c env method path query header ibody req resp ho
    exact Or.inl ⟨hst, rfl, rfl, rfl⟩

/-- Field characterization of a parsed (`getParsedResponse`-based)
operation on a completed response: the body is always closed before
returning; on non-2xx the error mirrors `raw_completed_fields`; on 2xx the
response is returned. -/
theorem parsed_completed_fields (zero : α) (c : Client) (env : Env) (method path : String)
    (query : Values) (header : Header) (ibody : Option String)
    (decode : String → Except String α) (resp : HttpResponse)
    (h : (parsedOpResult zero (getParsedResponse c env method path query header ibody decode)).completed
          = some resp) :
    (parsedOpResult zero (getParsedResponse c env method path query header ibody decode)).bodyClosed
        = some true
    ∧ ((resp.statusCode / 100 ≠ 2 ∧
        ((∃ e, resp.bodyRead = .error e ∧
            (parsedOpResult zero (getParsedResponse c env method path query header ibody decode)).err
              = some e ∧
            (parsedOpResult zero (getParsedResponse c env method path query header ibody decode)).resp
              = none)
          ∨ (∃ data, resp.bodyRead = .ok data ∧
              (parsedOpResult zero (getParsedResponse c env method path query header ibody decode)).resp
                = some resp ∧
              (parsedOpResult zero (getParsedResponse c env method path query header ibody decode)).err
                = some (if data.utf8ByteSize ≤ 1 then resp.status else data))))
      ∨ (resp.statusCode / 100 = 2 ∧
          (parsedOpResult zero (getParsedResponse c env method path query header ibody decode)).resp
            = some resp)) := by
  rcases ho : getParsedResponse c env method path query header ibody decode with
    _ | e | ⟨req, e⟩ | ⟨req, r, e⟩ | ⟨req, r, m⟩ | ⟨req, r, e⟩ | ⟨req, r, v⟩ <;>
      rw [ho] at h <;> simp only [parsedOpResult, Option.some.injEq] at h <;> try cases h
  · -- errRead
    have hr := getParsedResponse_errRead_inv c env method path query header ibody decode req resp e ho
    obtain ⟨hb, hst⟩ := getResponse_errRead_inv c env method path query header ibody req resp e hr
    exact ⟨rfl, Or.inl ⟨hst, Or.inl ⟨e, hb, rfl, rfl⟩⟩⟩
  · -- errStatus
    have hr := getParsedResponse_errStatus_inv c env method path query header ibody decode req resp m ho
    obtain ⟨hst, data, hb, hm⟩ :=
      getResponse_errStatus_inv c env method path query header ibody req resp m hr
    refine ⟨rfl, Or.inl ⟨hst, Or.inr ⟨data, hb, rfl, ?_⟩⟩⟩
    simp only [parsedOpResult]
    exact congrArg some hm
  · -- errDecode
    have hr := getParsedResponse_errDecode_inv c env method path query header ibody decode req resp e ho
    have hst := getResponse_ok_inv c env method path query header ibody req resp hr
    exact ⟨rfl, Or.inr ⟨hst, rfl⟩⟩
  · -- ok
    have hr := getParsedResponse_ok_inv c env method path query header ibody decode req resp v ho
    have hst := getResponse_ok_inv c env method path query header ibody req resp hr
    exact ⟨rfl, Or.inr ⟨hst, rfl⟩⟩

/-- Non-nil result on every non-panicking path of a parsed operation: the
target is allocated with `new` before the pipeline runs and returned on
every path. -/
theorem parsedOpResult_result_ne_none (zero : α) (o : ParsedOutcome α)
    (h : (parsedOpResult zero o).panicked = false) :
    (parsedOpResult zero o).result ≠ none := by
  cases o <;> simp [parsedOpResult] at h ⊢

/-! ### Concrete fixtures for witnesses and counterexamples -/

def clientEx : Client := NewClient "http://h" "tok"

def respOk200 : HttpResponse :=
  { statusCode := 200, status := "200 OK", bodyRead := .ok "null" }

def resp404Org : HttpResponse :=
  { statusCode := 404, status := "404 Not Found", bodyRead := .ok "org not found" }

def resp404ReadFail : HttpResponse :=
  { statusCode := 404, status := "404 Not Found", bodyRead := .error "read failed" }

/-- An environment whose externals all succeed and whose transport
completes `resp` for every request. -/
def envWith (resp : HttpResponse) : Env :=
  { urlParse := fun _ => none, newRequest := fun _ => none,
    transport := fun _ => .ok resp }

/-- An environment where `url.Parse` rejects the composed URL. -/
def envParseFail : Env :=
  { urlParse := fun _ => some "invalid base url",
    newRequest := fun _ => none, transport := fun _ => .ok respOk200 }

/-- An environment where `url.Parse` succeeds but `http.NewRequest`
returns an error (and hence a nil request). -/
def envNewReqFail : Env :=
  { urlParse := fun _ => none, newRequest := fun _ => some "request construction failure",
    transport := fun _ => .ok respOk200 }

def decodeProject : String → Except String Project := fun _ => .ok Project.mk

def decodeProjects : String → Except String GetProjectsResponse :=
  fun _ => .ok GetProjectsResponse.mk

def decodeRuns : String → Except String GetRunsResponse := fun _ => .ok GetRunsResponse.mk

/-! ### The claims -/

/-- C1: for every HTTP response the transport completed with a status code
outside 200-299, the operation returns a non-nil error; when the body
bytes were read and are at most one byte long, the error text is the HTTP
status line (e.g. `404 Not Found`), and otherwise the error text is
exactly the body bytes (e.g. a 404 with body `org not found` yields error
text exactly `org not found`). Stated for both operation shapes: raw
(`getResponse`-based, e.g. `DeleteOrg`) and parsed
(`getParsedResponse`-based, e.g. `GetProject`). -/
theorem claim_C1_non2xx_error_text (c : Client) (env : Env) (method path : String)
    (query : Values) (header : Header) (ibody : Option String)
    {α : Type} (zero : α) (decode : String → Except String α) (resp : HttpResponse)
    (hout : ¬(200 ≤ resp.statusCode ∧ resp.statusCode ≤ 299)) :
    ((rawResult (getResponse c env method path query header ibody)).completed = some resp →
      (rawResult (getResponse c env method path query header ibody)).err ≠ none ∧
      ∀ data, resp.bodyRead = .ok data →
        (rawResult (getResponse c env method path query header ibody)).err
          = some (if data.utf8ByteSize ≤ 1 then resp.status else data))
    ∧ ((parsedOpResult zero
          (getParsedResponse c env method path query header ibody decode)).completed = some resp →
      (parsedOpResult zero
          (getParsedResponse c env method path query header ibody decode)).err ≠ none ∧
      ∀ data, resp.bodyRead = .ok data →
        (parsedOpResult zero
            (getParsedResponse c env method path query header ibody decode)).err
          = some (if data.utf8ByteSize ≤ 1 then resp.status else data)) := by
  have hst : resp.statusCode / 100 ≠ 2 := (statusDiv_ne_two_iff _).mpr hout
  constructor
  · intro hcomp
    rcases raw_completed_fields c env method path query header ibody resp hcomp with
      ⟨h2, _⟩ | ⟨_, _, ⟨e, hb, herr, _⟩ | ⟨data0, hb, _, herr⟩⟩
    · exact absurd h2 hst
    · refine ⟨by rw [herr]; exact Option.some_ne_none e, ?_⟩
      intro data hdata
      rw [hdata] at hb
      cases hb
    · refine ⟨by rw [herr]; exact Option.some_ne_none _, ?_⟩
      intro data hdata
      rw [hdata] at hb
      injection hb with hdd
      subst hdd
      exact herr
  · intro hcomp
    rcases parsed_completed_fields zero c env method path query header ibody decode resp hcomp with
      ⟨_, ⟨_, ⟨e, hb, herr, _⟩ | ⟨data0, hb, _, herr⟩⟩ | ⟨h2, _⟩⟩
    · refine ⟨by rw [herr]; exact Option.some_ne_none e, ?_⟩
      intro data hdata
      rw [hdata] at hb
      cases hb
    · refine ⟨by rw [herr]; exact Option.some_ne_none _, ?_⟩
      intro data hdata
      rw [hdata] at hb
      injection hb with hdd
      subst hdd
      exact herr
    · exact absurd h2 hst

/-- C1 witness: `DeleteOrg` against a mock 404 whose body is
`org not found` returns error text exactly `org not found` (the spec's
scenario). -/
theorem claim_C1_witness :
    (DeleteOrg clientEx (envWith resp404Org) "acme").err = some "org not found" := by
  have h := (claim_C1_non2xx_error_text clientEx (envWith resp404Org) "DELETE" "/orgs/acme"
      Values.empty jsonContent none Project.mk decodeProject resp404Org (by decide)).1 rfl
  exact (h.2 "org not found" rfl).trans (by decide)

/-- C2 (code bug): when `http.NewRequest` fails, its request is nil and
`doRequest` runs `req = req.WithContext(ctx)` (`client.go` line 66) before
checking the error (line 67), so the call panics on a nil dereference
instead of returning the error — the error return on line 68 is dead code.
A `url.Parse` failure, by contrast, is returned as an ordinary error with
no request sent, as the claim demands. -/
theorem claim_C2_newRequest_failure_panics :
    (DeleteOrg clientEx envNewReqFail "acme").panicked = true ∧
    (DeleteOrg clientEx envNewReqFail "acme").sentReq = none ∧
    (DeleteOrg clientEx envParseFail "acme").panicked = false ∧
    (DeleteOrg clientEx envParseFail "acme").err = some "invalid base url" ∧
    (DeleteOrg clientEx envParseFail "acme").sentReq = none :=
  ⟨rfl, rfl, rfl, rfl, rfl⟩

/-- C3: for every body-carrying operation, a `json.Marshal` failure on the
request payload returns a nil typed result, a nil response and the marshal
error, with no request built and no network call performed. -/
theorem claim_C3_marshal_short_circuit (c : Client) (env : Env) (e : String)
    (ownertype ownername userName : String)
    (dp : String → Except String Project) (du : String → Except String UserResponse)
    (dla : String → Except String CreateUserLAResponse)
    (dtok : String → Except String CreateUserTokenResponse)
    (drs : String → Except String RemoteSource)
    (dorg : String → Except String OrgResponse) :
    (createProject c env ownertype ownername (.error e) dp).result = none ∧
    (createProject c env ownertype ownername (.error e) dp).resp = none ∧
    (createProject c env ownertype ownername (.error e) dp).err = some e ∧
    (createProject c env ownertype ownername (.error e) dp).sentReq = none ∧
    (createProject c env ownertype ownername (.error e) dp).panicked = false ∧
    (CreateUser c env (.error e) du).result = none ∧
    (CreateUser c env (.error e) du).resp = none ∧
    (CreateUser c env (.error e) du).err = some e ∧
    (CreateUser c env (.error e) du).sentReq = none ∧
    (CreateUserLA c env userName (.error e) dla).result = none ∧
    (CreateUserLA c env userName (.error e) dla).resp = none ∧
    (CreateUserLA c env userName (.error e) dla).err = some e ∧
    (CreateUserLA c env userName (.error e) dla).sentReq = none ∧
    (CreateUserToken c env userName (.error e) dtok).result = none ∧
    (CreateUserToken c env userName (.error e) dtok).resp = none ∧
    (CreateUserToken c env userName (.error e) dtok).err = some e ∧
    (CreateUserToken c env userName (.error e) dtok).sentReq = none ∧
    (CreateRemoteSource c env (.error e) drs).result = none ∧
    (CreateRemoteSource c env (.error e) drs).resp = none ∧
    (CreateRemoteSource c env (.error e) drs).err = some e ∧
    (CreateRemoteSource c env (.error e) drs).sentReq = none ∧
    (CreateOrg c env (.error e) dorg).result = none ∧
    (CreateOrg c env (.error e) dorg).resp = none ∧
    (CreateOrg c env (.error e) dorg).err = some e ∧
    (CreateOrg c env (.error e) dorg).sentReq = none :=
  ⟨rfl, rfl, rfl, rfl, rfl, rfl, rfl, rfl, rfl, rfl, rfl, rfl, rfl,
   rfl, rfl, rfl, rfl, rfl, rfl, rfl, rfl, rfl, rfl, rfl, rfl⟩

/-- C4: the encoded query string of every list operation. For the
pagination trio (`getProjects` — hence the three `Get*Projects` wrappers —
`GetUsers`, `GetRemoteSources`): non-positive `limit` contributes nothing,
positive `limit` appears as `limit=<decimal string>` (its value survives
`QueryEscape` unchanged), `asc=true` contributes the empty-valued `asc`
key, `asc=false` nothing, empty `start` nothing and non-empty `start` the
`start=<escaped value>` pair. For `GetRuns`, each `phase`/`group`/
`rungroup` filter value appears as a repeated parameter of its key in
caller-supplied slice order. `Encode` emits keys sorted. -/
theorem claim_C4_list_query_encoding (c : Client) (env : Env)
    (start : String) (limit : Int) (asc : Bool)
    (phaseFilter groups runGroups : List String) (ownertype ownername : String)
    (dp : String → Except String GetProjectsResponse)
    (du : String → Except String UsersResponse)
    (drs : String → Except String RemoteSourcesResponse)
    (dr : String → Except String GetRunsResponse) :
    (∀ req, (getProjects c env ownertype ownername start limit asc dp).sentReq = some req →
        req.rawQuery = specListQueryEnc start limit asc)
    ∧ (∀ req, (GetUsers c env start limit asc du).sentReq = some req →
        req.rawQuery = specListQueryEnc start limit asc)
    ∧ (∀ req, (GetRemoteSources c env start limit asc drs).sentReq = some req →
        req.rawQuery = specListQueryEnc start limit asc)
    ∧ (∀ req, (GetRuns c env phaseFilter groups runGroups start limit asc dr).sentReq
          = some req →
        req.rawQuery = specRunsQueryEnc phaseFilter groups runGroups start limit asc) := by
  refine ⟨?_, ?_, ?_, ?_⟩ <;> intro req h
  · have heq := parsed_pipeline_sentReq GetProjectsResponse.mk c env "GET"
      (pathJoin ["/", ownertype, ownername, "projects"]) (listQueryBuilt start limit asc)
      jsonContent none dp req h
    rw [heq]
    exact encode_listQueryBuilt start limit asc
  · have heq := parsed_pipeline_sentReq UsersResponse.mk c env "GET" "/users"
      (listQueryBuilt start limit asc) jsonContent none du req h
    rw [heq]
    exact encode_listQueryBuilt start limit asc
  · have heq := parsed_pipeline_sentReq RemoteSourcesResponse.mk c env "GET" "/remotesources"
      (listQueryBuilt start limit asc) jsonContent none drs req h
    rw [heq]
    exact encode_listQueryBuilt start limit asc
  · have heq := parsed_pipeline_sentReq GetRunsResponse.mk c env "GET" "/runs"
      (runsQueryBuilt phaseFilter groups runGroups start limit asc) jsonContent none dr req h
    rw [heq]
    exact encode_runsQueryBuilt phaseFilter groups runGroups start limit asc

/-- C4 witness: a concrete `GetRuns` call with two phase filters, cursor
`c1`, limit 5 and ascending order produces exactly this encoded query. -/
theorem claim_C4_witness :
    ((GetRuns clientEx (envWith respOk200) ["finished", "queued"] [] [] "c1" 5 true
        decodeRuns).sentReq.map Request.rawQuery)
      = some "asc=&limit=5&phase=finished&phase=queued&start=c1" := by
  obtain ⟨req, hreq⟩ :
      ∃ req, (GetRuns clientEx (envWith respOk200) ["finished", "queued"] [] [] "c1" 5 true
        decodeRuns).sentReq = some req := ⟨_, rfl⟩
  have h := (claim_C4_list_query_encoding clientEx (envWith respOk200) "c1" 5 true
      ["finished", "queued"] [] [] "user" "" decodeProjects
      (fun _ => Except.ok UsersResponse.mk) (fun _ => Except.ok RemoteSourcesResponse.mk)
      decodeRuns).2.2.2 req hreq
  rw [hreq]
  show some req.rawQuery = _
  rw [h]
  decide

/-- C5: the request URL is the configured base URL plus the literal prefix
`/api/v1alpha` plus the path suffix; the empty owner-name segment of
`GetCurrentUserProjects` collapses under `path.Join` without a double
slash, and `GetCurrentUserProjects(ctx, "", 10, true)` issues a `GET` for
`{base}/api/v1alpha/user/projects` with encoded query `asc=&limit=10`. -/
theorem claim_C5_current_user_projects_url (c : Client) (env : Env)
    (decode : String → Except String GetProjectsResponse) (req : Request)
    (h : (GetCurrentUserProjects c env "" 10 true decode).sentReq = some req) :
    req.method = "GET" ∧
    req.rawUrl = c.url ++ "/api/v1alpha" ++ "/user/projects" ∧
    req.rawQuery = "asc=&limit=10" := by
  have heq := parsed_pipeline_sentReq GetProjectsResponse.mk c env "GET"
    (pathJoin ["/", "user", "", "projects"]) (listQueryBuilt "" 10 true)
    jsonContent none decode req h
  rw [heq]
  exact ⟨rfl, rfl, rfl⟩

/-- C5 witness: the scenario evaluated against a concrete client with base
URL `http://h` and an all-successful environment. -/
theorem claim_C5_witness :
    ∃ req, (GetCurrentUserProjects clientEx (envWith respOk200) "" 10 true
        decodeProjects).sentReq = some req ∧
      req.method = "GET" ∧ req.rawUrl = "http://h/api/v1alpha/user/projects" ∧
      req.rawQuery = "asc=&limit=10" := by
  obtain ⟨req, hreq⟩ :
      ∃ req, (GetCurrentUserProjects clientEx (envWith respOk200) "" 10 true
        decodeProjects).sentReq = some req := ⟨_, rfl⟩
  have h := claim_C5_current_user_projects_url clientEx (envWith respOk200)
    decodeProjects req hreq
  exact ⟨req, hreq, h.1, h.2.1.trans (by decide), h.2.2⟩

/-- C6 counterexample: `DeleteOrg` against a transport that completes a
200 response returns with the body neither consumed nor closed — the 2xx
path of `getResponse` returns the response untouched and the raw
(delete/reconfig) operations hand it straight to the caller. This refutes
"consumed and closed on every exit path". -/
theorem claim_C6_counterexample :
    (DeleteOrg clientEx (envWith respOk200) "acme").completed = some respOk200 ∧
    (DeleteOrg clientEx (envWith respOk200) "acme").err = none ∧
    (DeleteOrg clientEx (envWith respOk200) "acme").bodyClosed = some false :=
  ⟨rfl, rfl, rfl⟩

/-- C6 (amended): the response body is consumed and closed before the
operation returns on every path where the client reads it — every
completed response of a parsed (JSON-decoding) operation, and every
non-2xx response of a raw operation. Raw operations (`deleteProject`,
`DeleteUser`, `DeleteUserLA`, `DeleteRemoteSource`, `DeleteOrg`,
`ReconfigProject`) return a completed 2xx response with its body still
open, left to the caller. -/
theorem claim_C6_body_close_discipline (c : Client) (env : Env) (method path : String)
    (query : Values) (header : Header) (ibody : Option String)
    {α : Type} (zero : α) (decode : String → Except String α) (resp : HttpResponse) :
    ((parsedOpResult zero
          (getParsedResponse c env method path query header ibody decode)).completed
        = some resp →
      (parsedOpResult zero
          (getParsedResponse c env method path query header ibody decode)).bodyClosed
        = some true)
    ∧ ((rawResult (getResponse c env method path query header ibody)).completed = some resp →
      (rawResult (getResponse c env method path query header ibody)).bodyClosed
        = some (if resp.statusCode / 100 = 2 then false else true)) := by
  constructor
  · intro h
    exact (parsed_completed_fields zero c env method path query header ibody decode resp h).1
  · intro h
    rcases raw_completed_fields c env method path query header ibody resp h with
      ⟨h2, _, _, hbc⟩ | ⟨h2, hbc, _⟩
    · rw [hbc, if_pos h2]
    · rw [hbc, if_neg h2]

/-- C6 witness: a parsed operation (`GetProject`) against a completed 404
closes the body before returning. -/
theorem claim_C6_witness :
    (GetProject clientEx (envWith resp404Org) "p1" decodeProject).bodyClosed = some true :=
  (claim_C6_body_close_discipline clientEx (envWith resp404Org) "GET" ("/project/" ++ "p1")
    Values.empty jsonContent none Project.mk decodeProject resp404Org).1 rfl

/-- C7 counterexample: when the transport completes a non-2xx response but
reading its error body fails, `getResponse` returns `(nil, err)`
(`client.go` line 89) — the completed response is dropped, refuting "the
raw response is always returned alongside the error". -/
theorem claim_C7_counterexample :
    (DeleteOrg clientEx (envWith resp404ReadFail) "acme").completed = some resp404ReadFail ∧
    (DeleteOrg clientEx (envWith resp404ReadFail) "acme").resp = none ∧
    (DeleteOrg clientEx (envWith resp404ReadFail) "acme").err = some "read failed" :=
  ⟨rfl, rfl, rfl⟩

/-- C7 (amended): whenever the transport completed a response, the
operation returns that raw response alongside the result or error —
except on the one path where the non-2xx error body fails to read, in
which case a nil response is returned together with the read error.
Stated for both operation shapes. -/
theorem claim_C7_response_returned (c : Client) (env : Env) (method path : String)
    (query : Values) (header : Header) (ibody : Option String)
    {α : Type} (zero : α) (decode : String → Except String α) (resp : HttpResponse) :
    ((rawResult (getResponse c env method path query header ibody)).completed = some resp →
      (rawResult (getResponse c env method path query header ibody)).resp = some resp
      ∨ ((rawResult (getResponse c env method path query header ibody)).resp = none
          ∧ resp.statusCode / 100 ≠ 2
          ∧ ∃ e, resp.bodyRead = .error e
              ∧ (rawResult (getResponse c env method path query header ibody)).err = some e))
    ∧ ((parsedOpResult zero
          (getParsedResponse c env method path query header ibody decode)).completed
        = some resp →
      (parsedOpResult zero
          (getParsedResponse c env method path query header ibody decode)).resp = some resp
      ∨ ((parsedOpResult zero
            (getParsedResponse c env method path query header ibody decode)).resp = none
          ∧ resp.statusCode / 100 ≠ 2
          ∧ ∃ e, resp.bodyRead = .error e
              ∧ (parsedOpResult zero
                  (getParsedResponse c env method path query header ibody decode)).err
                = some e)) := by
  constructor
  · intro h
    rcases raw_completed_fields c env method path query header ibody resp h with
      ⟨_, _, hresp, _⟩ | ⟨h2, _, ⟨e, hb, herr, hresp⟩ | ⟨data, _, hresp, _⟩⟩
    · exact Or.inl hresp
    · exact Or.inr ⟨hresp, h2, e, hb, herr⟩
    · exact Or.inl hresp
  · intro h
    rcases parsed_completed_fields zero c env method path query header ibody decode resp h with
      ⟨_, ⟨h2, ⟨e, hb, herr, hresp⟩ | ⟨data, _, hresp, _⟩⟩ | ⟨_, hresp⟩⟩
    · exact Or.inr ⟨hresp, h2, e, hb, herr⟩
    · exact Or.inl hresp
    · exact Or.inl hresp

/-- C7 witness: with a readable 404 error body, `DeleteOrg` returns the
completed raw response alongside the error. -/
theorem claim_C7_witness :
    (DeleteOrg clientEx (envWith resp404Org) "acme").resp = some resp404Org := by
  rcases (claim_C7_response_returned clientEx (envWith resp404Org) "DELETE" "/orgs/acme"
      Values.empty jsonContent none Project.mk decodeProject resp404Org).1 rfl with
    h | ⟨_, _, e, hb, _⟩
  · exact h
  · simp [resp404Org] at hb

/-- C8: `doRequest` first sets the `Authorization` header to
`token <token>` and then overlays the caller-supplied headers by map
assignment, so an explicit caller `Authorization` entry replaces the token
header, and in its absence the token header is sent. (`header` is a Go
map, so its keys are pairwise distinct.) -/
theorem claim_C8_authorization_precedence (c : Client) (env : Env) (method path : String)
    (query : Values) (header : Header) (ibody : Option String) (req : Request)
    (hnd : (header.map Prod.fst).Nodup)
    (h : (doRequest c env method path query header ibody).sentReqD = some req) :
    req.header = Header.overlay (Header.set [] "Authorization" ("token " ++ c.token)) header
    ∧ (∀ vs, Header.lookup header "Authorization" = some vs →
        Header.lookup req.header "Authorization" = some vs)
    ∧ (Header.lookup header "Authorization" = none →
        Header.lookup req.header "Authorization" = some ["token " ++ c.token]) := by
  have heq := doRequest_sentReq_eq c env method path query header ibody req h
  subst heq
  refine ⟨rfl, ?_, ?_⟩
  · intro vs hvs
    show Header.lookup
      (Header.overlay (Header.set [] "Authorization" ("token " ++ c.token)) header)
      "Authorization" = some vs
    rw [Header.lookup_overlay _ header "Authorization" hnd, hvs]
  · intro hnone
    show Header.lookup
      (Header.overlay (Header.set [] "Authorization" ("token " ++ c.token)) header)
      "Authorization" = some ["token " ++ c.token]
    rw [Header.lookup_overlay _ header "Authorization" hnd, hnone]
    rfl

/-- C8 witness: a caller-supplied `Authorization: custom` header wins over
the token header in the outgoing request. -/
theorem claim_C8_witness :
    ∃ req, (doRequest clientEx (envWith respOk200) "GET" "/users" Values.empty
        [("Authorization", ["custom"])] none).sentReqD = some req ∧
      Header.lookup req.header "Authorization" = some ["custom"] := by
  obtain ⟨req, hreq⟩ :
      ∃ req, (doRequest clientEx (envWith respOk200) "GET" "/users" Values.empty
        [("Authorization", ["custom"])] none).sentReqD = some req := ⟨_, rfl⟩
  have h := claim_C8_authorization_precedence clientEx (envWith respOk200) "GET" "/users"
    Values.empty [("Authorization", ["custom"])] none req (by decide) hreq
  exact ⟨req, hreq, h.2.1 ["custom"] rfl⟩

/-- C9 counterexample: identifiers are interpolated verbatim, not
URL-escaped: `DeleteOrg` with org name `a/b` issues the URL
`http://h/api/v1alpha/orgs/a/b` — the `/` inside the identifier becomes a
path separator — instead of the single-segment escaped form
`http://h/api/v1alpha/orgs/a%2Fb` the claim requires. -/
theorem claim_C9_counterexample :
    ∃ req, (DeleteOrg clientEx (envWith respOk200) "a/b").sentReq = some req ∧
      req.rawUrl = "http://h/api/v1alpha/orgs/a/b" ∧
      req.rawUrl ≠ "http://h/api/v1alpha/orgs/a%2Fb" := by
  refine ⟨_, rfl, rfl, by decide⟩

/-- C9 (amended): identifier parameters are interpolated verbatim
(`fmt.Sprintf`) into the path with no URL escaping, so the string handed
to URL parsing is the base URL plus `/api/v1alpha` plus the literal
identifier; URL-significant characters in an identifier therefore alter
the request's structure instead of being confined to one path segment.
Stated for the claim's examples `GetProject`, `DeleteUser`, `DeleteOrg`. -/
theorem claim_C9_identifiers_verbatim (c : Client) (env : Env)
    (projectID userName orgName : String) (dp : String → Except String Project) :
    (∀ req, (GetProject c env projectID dp).sentReq = some req →
        req.rawUrl = c.url ++ "/api/v1alpha" ++ ("/project/" ++ projectID))
    ∧ (∀ req, (DeleteUser c env userName).sentReq = some req →
        req.rawUrl = c.url ++ "/api/v1alpha" ++ ("/users/" ++ userName))
    ∧ (∀ req, (DeleteOrg c env orgName).sentReq = some req →
        req.rawUrl = c.url ++ "/api/v1alpha" ++ ("/orgs/" ++ orgName)) := by
  refine ⟨?_, ?_, ?_⟩ <;> intro req h
  · have heq := parsed_pipeline_sentReq Project.mk c env "GET" ("/project/" ++ projectID)
      Values.empty jsonContent none dp req h
    rw [heq]
  · have heq := raw_pipeline_sentReq c env "DELETE" ("/users/" ++ userName)
      Values.empty jsonContent none req h
    rw [heq]
  · have heq := raw_pipeline_sentReq c env "DELETE" ("/orgs/" ++ orgName)
      Values.empty jsonContent none req h
    rw [heq]

/-- C9 witness: a plain identifier flows verbatim into the URL. -/
theorem claim_C9_witness :
    ∃ req, (DeleteOrg clientEx (envWith respOk200) "acme").sentReq = some req ∧
      req.rawUrl = "http://h/api/v1alpha/orgs/acme" := by
  obtain ⟨req, hreq⟩ :
      ∃ req, (DeleteOrg clientEx (envWith respOk200) "acme").sentReq = some req := ⟨_, rfl⟩
  have h := (claim_C9_identifiers_verbatim clientEx (envWith respOk200) "p" "u" "acme"
      decodeProject).2.2 req hreq
  exact ⟨req, hreq, h.trans (by decide)⟩

/-- C10: get-style operations allocate their typed result with `new`
before the pipeline runs and return it on every non-panicking path, so on
status and decode errors the result is a non-nil pointer to the
zero-valued structure; only a marshal failure (here `CreateUser`) returns
a nil result. -/
theorem claim_C10_result_non_nil (c : Client) (env : Env)
    (projectID userID runID : String)
    (dp : String → Except String Project) (du : String → Except String User)
    (dr : String → Except String RunResponse) (dcu : String → Except String UserResponse)
    (reqMarshal : Except String String) :
    ((GetProject c env projectID dp).panicked = false →
      (GetProject c env projectID dp).result ≠ none)
    ∧ ((GetUser c env userID du).panicked = false →
      (GetUser c env userID du).result ≠ none)
    ∧ ((GetRun c env runID dr).panicked = false →
      (GetRun c env runID dr).result ≠ none)
    ∧ ((CreateUser c env reqMarshal dcu).panicked = false →
      ((CreateUser c env reqMarshal dcu).result = none
        ↔ ∃ e, reqMarshal = .error e)) := by
  refine ⟨?_, ?_, ?_, ?_⟩
  · exact fun h => parsedOpResult_result_ne_none Project.mk _ h
  · exact fun h => parsedOpResult_result_ne_none User.mk _ h
  · exact fun h => parsedOpResult_result_ne_none RunResponse.mk _ h
  · intro h
    cases reqMarshal with
    | error e =>
      constructor
      · intro _; exact ⟨e, rfl⟩
      · intro _; rfl
    | ok reqj =>
      constructor
      · intro hnone
        exact absurd hnone (parsedOpResult_result_ne_none UserResponse.mk _ h)
      · rintro ⟨e, he⟩
        cases he

/-- C10 witness: on a 404 status error, `GetProject` still returns a
non-nil (zero-valued) result. -/
theorem claim_C10_witness :
    (GetProject clientEx (envWith resp404Org) "p1" decodeProject).result ≠ none :=
  (claim_C10_result_non_nil clientEx (envWith resp404Org) "p1" "u1" "r1" decodeProject
    (fun _ => Except.ok User.mk) (fun _ => Except.ok RunResponse.mk)
    (fun _ => Except.ok UserResponse.mk) (Except.ok "x")).1 rfl

end Agola
